import Mathlib

/-!
Verification of the detection recorder (`src/main.py`).

Shallow embedding:
* a Python `datetime` value is modelled as a natural number of microseconds
  since an arbitrary epoch (all datetimes handled by the program are naive
  and compared/subtracted pairwise, so only differences matter);
* Python `timedelta.seconds` for a nonnegative difference of `d` microseconds
  is `(d / 1000000) % 86400`: the difference truncated to whole seconds with
  whole days discarded (`timedelta` normalises to days/seconds/microseconds);
* the detections table is a list of rows plus an auto-increment counter;
* `ORDER BY`/`LIMIT`/`filter` queries are modelled as sorting/filtering the
  row list; the SQL layer leaves the order of rows with equal `time` values
  unspecified, so the tie-break is modelled from the spec (see `detLe`);
* the alert `print` is modelled as a returned `Bool`, the failure `raise` in
  `database_connection` as `Except`.
-/

/-- Python `timedelta.seconds` of a nonnegative difference of `d`
microseconds: whole seconds, with whole days discarded. -/
def tdSeconds (d : Nat) : Nat := (d / 1000000) % 86400

/-- Row of the `detections` table (`class Detection`): auto-increment `id`,
`time` (microseconds), `type` (category string). -/
structure Detection where
  id : Nat
  time : Nat
  type : String
deriving DecidableEq

/-- State of the store: the rows of the single table, in insertion order,
plus the next auto-increment id. -/
structure Store where
  rows : List Detection
  nextId : Nat
deriving DecidableEq

/-- Fresh database: no rows, ids start at 1. -/
def Store.empty : Store := ⟨[], 1⟩

/-- Row predicate for `DetectionClass.type.in_(types)`. -/
def typeIn (types : List String) (d : Detection) : Bool := types.contains d.type

/-- Modelled from the spec: the source orders with `order_by(time.desc())`
and the SQL backend leaves the relative order of equal `time` values
unspecified; the spec fixes ties "deterministically by insertion id", which
is modelled as the lexicographic descending order on `(time, id)`. -/
def detLe (a b : Detection) : Prop :=
  b.time < a.time ∨ (b.time = a.time ∧ b.id ≤ a.id)

/-- Modelled from the spec: ascending companion of `detLe` for
`order_by(time)`, ties again broken by insertion id. -/
def detAscLe (a b : Detection) : Prop :=
  a.time < b.time ∨ (a.time = b.time ∧ a.id ≤ b.id)

instance : DecidableRel detLe := fun a b =>
  decidable_of_iff (b.time < a.time ∨ (b.time = a.time ∧ b.id ≤ a.id)) Iff.rfl

instance : DecidableRel detAscLe := fun a b =>
  decidable_of_iff (a.time < b.time ∨ (a.time = b.time ∧ a.id ≤ b.id)) Iff.rfl

instance : IsTotal Detection detLe :=
  ⟨by intro a b; unfold detLe; omega⟩

instance : IsTrans Detection detLe :=
  ⟨by intro a b c; unfold detLe; omega⟩

instance : IsTotal Detection detAscLe :=
  ⟨by intro a b; unfold detAscLe; omega⟩

instance : IsTrans Detection detAscLe :=
  ⟨by intro a b c; unfold detAscLe; omega⟩

/-- Embedding of `session.query(...).filter(type.in_(types)).order_by(time.desc()).limit(n).all()`
(`main.py` line 75). -/
def queryRecent (rows : List Detection) (types : List String) (n : Nat) :
    List Detection :=
  (((rows.filter (typeIn types)).insertionSort detLe).take n)

/-- Embedding of `session.query(time).filter(type.in_(types)).order_by(time).all()`
followed by extracting the timestamp column (`main.py` lines 122-124). -/
def queryTimesAsc (rows : List Detection) (types : List String) : List Nat :=
  ((rows.filter (typeIn types)).insertionSort detAscLe).map Detection.time

/-- Embedding of the adjacency loop of `ingest_data` (`main.py` lines 79-83):
`True` unless some adjacent pair of the newest-first list has
`(newer.time - older.time).seconds > 60`. -/
def consecutiveCheck : List Detection → Bool
  | a :: b :: rest =>
    if 60 < tdSeconds (a.time - b.time) then false
    else consecutiveCheck (b :: rest)
  | _ => true

/-- Embedding of `ingest_data` (`main.py` lines 60-86): insert the new row
(flushed, hence visible to the query), fetch the 5 most recent
pedestrian/bicycle rows, and return whether the alert is printed. -/
def ingest_data (s : Store) (timestamp : Nat) (detection_type : String) :
    Store × Bool :=
  let s2 : Store := ⟨s.rows ++ [⟨s.nextId, timestamp, detection_type⟩], s.nextId + 1⟩
  let last5 := queryRecent s2.rows ["pedestrian", "bicycle"] 5
  (s2, last5.length == 5 && consecutiveCheck last5)

/-- Ingest a batch of `(timestamp, type)` pairs in order, collecting the
alert outcome of every single ingestion. -/
def runIngests (s : Store) : List (Nat × String) → Store × List Bool
  | [] => (s, [])
  | (t, ty) :: rest =>
    let p := ingest_data s t ty
    let q := runIngests p.1 rest
    (q.1, p.2 :: q.2)

/-- Embedding of the scan loop of `group_timestamps` (`main.py` lines
131-138): current run is `[start, stop]`, a gap of `.seconds <= 60` extends
the run, otherwise the run is closed and a new one starts; the final run is
appended after the loop. -/
def groupGo (start stop : Nat) : List Nat → List (Nat × Nat)
  | [] => [(start, stop)]
  | ts :: rest =>
    if tdSeconds (ts - stop) ≤ 60 then groupGo start ts rest
    else (start, stop) :: groupGo ts ts rest

/-- Embedding of the grouping core of `group_timestamps` (`main.py` lines
126-139) applied to an already-fetched timestamp list. -/
def groupIntervals : List Nat → List (Nat × Nat)
  | [] => []
  | t :: rest => groupGo t t rest

/-- Embedding of `group_timestamps` (`main.py` lines 113-139). -/
def group_timestamps (rows : List Detection) (types : List String) :
    List (Nat × Nat) :=
  groupIntervals (queryTimesAsc rows types)

/-- Embedding of `aggregate_detections` (`main.py` lines 141-152); the
Python dict is modelled as an insertion-ordered association list. -/
def aggregate_detections (rows : List Detection) :
    List (String × List (Nat × Nat)) :=
  [("people", group_timestamps rows ["pedestrian", "bicycle"]),
   ("vehicles", group_timestamps rows ["car", "truck", "van"])]

/-- Embedding of the retry loop of `wait_for_db_connection` (`main.py`
lines 32-42). `conn i` tells whether the `i`-th connection attempt (0-based)
succeeds. Arguments: remaining loop iterations, current attempt index.
Result: the returned value (`none` models Python falling off the loop and
returning `None`, possible only for `retries = 0`), the number of connection
attempts made, and the total seconds slept. -/
def waitAux (conn : Nat → Bool) (retries delay : Nat) :
    Nat → Nat → Option Bool × Nat × Nat
  | 0, _ => (none, 0, 0)
  | rem + 1, attempt =>
    if conn attempt then (some true, 1, 0)
    else if attempt < retries - 1 then
      let p := waitAux conn retries delay rem (attempt + 1)
      (p.1, p.2.1 + 1, p.2.2 + delay)
    else (some false, 1, 0)

/-- Embedding of `wait_for_db_connection` (`main.py` lines 23-42). -/
def wait_for_db_connection (conn : Nat → Bool) (retries delay : Nat) :
    Option Bool × Nat × Nat :=
  waitAux conn retries delay retries 0

/-- Embedding of `database_connection` (`main.py` lines 45-58): calls the
retry loop with the default budget (5 retries, 5 seconds delay) and raises
unless it reports success. -/
def database_connection (conn : Nat → Bool) : Except String Unit :=
  match (wait_for_db_connection conn 5 5).1 with
  | some true => Except.ok ()
  | _ => Except.error "Could not establish connection to the database."

/-- Shift a row's timestamp by `n` microseconds (used to state that the
program's behaviour only depends on time differences). -/
def Detection.shiftTime (n : Nat) (d : Detection) : Detection :=
  ⟨d.id, n + d.time, d.type⟩

/-- Shift every stored timestamp by `n` microseconds. -/
def Store.shift (n : Nat) (s : Store) : Store :=
  ⟨s.rows.map (Detection.shiftTime n), s.nextId⟩

/-- Shift every ingested timestamp by `n` microseconds. -/
def shiftIngests (n : Nat) (l : List (Nat × String)) : List (Nat × String) :=
  l.map (fun p => (n + p.1, p.2))

/-- Gap schedule used by `scenarioGapTimes`: 61 seconds at position `k`,
30 seconds elsewhere. -/
def gapAt (k i : Nat) : Nat := if i = k then 61000000 else 30000000

/-- Timestamp offsets (microseconds) of five events whose four adjacent
gaps are 30 seconds, except that the `k`-th gap (0-based) is 61 seconds. -/
def scenarioGapTimes (k : Nat) : List Nat :=
  [0,
   gapAt k 0,
   gapAt k 0 + gapAt k 1,
   gapAt k 0 + gapAt k 1 + gapAt k 2,
   gapAt k 0 + gapAt k 1 + gapAt k 2 + gapAt k 3]

/-- Reduction of `ingest_data` to its components. -/
theorem ingest_data_eq (s : Store) (t : Nat) (ty : String) :
    ingest_data s t ty =
      (⟨s.rows ++ [⟨s.nextId, t, ty⟩], s.nextId + 1⟩,
       (queryRecent (s.rows ++ [⟨s.nextId, t, ty⟩]) ["pedestrian", "bicycle"] 5).length == 5 &&
         consecutiveCheck (queryRecent (s.rows ++ [⟨s.nextId, t, ty⟩]) ["pedestrian", "bicycle"] 5)) :=
  rfl

/-- Reduction of `runIngests` on a cons. -/
theorem runIngests_cons (s : Store) (t : Nat) (ty : String)
    (rest : List (Nat × String)) :
    runIngests s ((t, ty) :: rest) =
      ((runIngests (ingest_data s t ty).1 rest).1,
       (ingest_data s t ty).2 :: (runIngests (ingest_data s t ty).1 rest).2) :=
  rfl

/-- Two timestamps whose gap fails the 60-second test are distinct, so the
split step of the scan strictly advances time. -/
theorem lt_of_gapFail {e ts : Nat} (hle : e ≤ ts)
    (hg : ¬ tdSeconds (ts - e) ≤ 60) : e < ts := by
  rcases Nat.lt_or_ge e ts with h | h
  · exact h
  · exfalso
    apply hg
    have hz : ts - e = 0 := by omega
    simp [tdSeconds, hz]

/-- The adjacency loop succeeds exactly when every adjacent pair of the
newest-first list passes the 60-second test. -/
theorem consecutiveCheck_iff :
    ∀ l : List Detection,
      consecutiveCheck l = true ↔
        List.Chain' (fun a b => tdSeconds (a.time - b.time) ≤ 60) l
  | [] => by simp [consecutiveCheck]
  | [a] => by simp [consecutiveCheck]
  | a :: b :: rest => by
    rw [List.chain'_cons, ← consecutiveCheck_iff (b :: rest)]
    show (if 60 < tdSeconds (a.time - b.time) then false
      else consecutiveCheck (b :: rest)) = true ↔ _
    by_cases h : 60 < tdSeconds (a.time - b.time)
    · rw [if_pos h]
      simp only [Bool.false_eq_true, false_iff]
      rintro ⟨h1, -⟩
      omega
    · rw [if_neg h]
      have h1 : tdSeconds (a.time - b.time) ≤ 60 := by omega
      constructor
      · intro hc
        exact ⟨h1, hc⟩
      · rintro ⟨-, hc⟩
        exact hc

/-- The scan helper always emits at least the current run. -/
theorem groupGo_ne_nil : ∀ (s e : Nat) (l : List Nat), groupGo s e l ≠ []
  | _, _, [] => by simp [groupGo]
  | s, e, ts :: rest => by
    show (if tdSeconds (ts - e) ≤ 60 then groupGo s ts rest
      else (s, e) :: groupGo ts ts rest) ≠ []
    by_cases hg : tdSeconds (ts - e) ≤ 60
    · rw [if_pos hg]
      exact groupGo_ne_nil s ts rest
    · rw [if_neg hg]
      simp

/-- Every interval emitted by the scan helper starts no earlier than the
current run start and is well-formed. -/
theorem groupGo_forall :
    ∀ (l : List Nat) (s e : Nat), s ≤ e → List.Chain' (· ≤ ·) (e :: l) →
      ∀ p ∈ groupGo s e l, s ≤ p.1 ∧ p.1 ≤ p.2
  | [], s, e => by
    intro hse _ p hp
    simp only [groupGo, List.mem_singleton] at hp
    subst hp
    exact ⟨le_refl s, hse⟩
  | ts :: rest, s, e => by
    intro hse hch p hp
    have hets : e ≤ ts := (List.chain'_cons.mp hch).1
    have hch' : List.Chain' (· ≤ ·) (ts :: rest) := (List.chain'_cons.mp hch).2
    revert hp
    show p ∈ (if tdSeconds (ts - e) ≤ 60 then groupGo s ts rest
      else (s, e) :: groupGo ts ts rest) → _
    by_cases hg : tdSeconds (ts - e) ≤ 60
    · rw [if_pos hg]
      exact groupGo_forall rest s ts (hse.trans hets) hch' p
    · rw [if_neg hg]
      intro hp
      rcases List.mem_cons.mp hp with h | h
      · subst h
        exact ⟨le_refl s, hse⟩
      · have h2 := groupGo_forall rest ts ts (le_refl ts) hch' p h
        exact ⟨(hse.trans hets).trans h2.1, h2.2⟩

/-- The intervals emitted by the scan helper are pairwise ordered and
disjoint: each one ends strictly before the next begins. -/
theorem groupGo_pairwise :
    ∀ (l : List Nat) (s e : Nat), s ≤ e → List.Chain' (· ≤ ·) (e :: l) →
      List.Pairwise (fun p q : Nat × Nat => p.2 < q.1) (groupGo s e l)
  | [], s, e => by
    intro _ _
    simp [groupGo]
  | ts :: rest, s, e => by
    intro hse hch
    have hets : e ≤ ts := (List.chain'_cons.mp hch).1
    have hch' : List.Chain' (· ≤ ·) (ts :: rest) := (List.chain'_cons.mp hch).2
    show List.Pairwise _ (if tdSeconds (ts - e) ≤ 60 then groupGo s ts rest
      else (s, e) :: groupGo ts ts rest)
    by_cases hg : tdSeconds (ts - e) ≤ 60
    · rw [if_pos hg]
      exact groupGo_pairwise rest s ts (hse.trans hets) hch'
    · rw [if_neg hg, List.pairwise_cons]
      refine ⟨fun q hq => ?_, groupGo_pairwise rest ts ts (le_refl ts) hch'⟩
      exact lt_of_lt_of_le (lt_of_gapFail hets hg)
        (groupGo_forall rest ts ts (le_refl ts) hch' q hq).1

/-- Coverage: every timestamp already absorbed into the current run, and
every timestamp still to be scanned, lands inside some emitted interval. -/
theorem groupGo_cover :
    ∀ (l : List Nat) (s e : Nat), s ≤ e → List.Chain' (· ≤ ·) (e :: l) →
      ∀ t : Nat, ((s ≤ t ∧ t ≤ e) ∨ t ∈ l) →
        ∃ p, p ∈ groupGo s e l ∧ p.1 ≤ t ∧ t ≤ p.2
  | [], s, e => by
    intro hse _ t ht
    rcases ht with ⟨h1, h2⟩ | h
    · exact ⟨(s, e), by simp [groupGo], h1, h2⟩
    · cases h
  | ts :: rest, s, e => by
    intro hse hch t ht
    have hets : e ≤ ts := (List.chain'_cons.mp hch).1
    have hch' : List.Chain' (· ≤ ·) (ts :: rest) := (List.chain'_cons.mp hch).2
    show ∃ p, p ∈ (if tdSeconds (ts - e) ≤ 60 then groupGo s ts rest
      else (s, e) :: groupGo ts ts rest) ∧ _
    by_cases hg : tdSeconds (ts - e) ≤ 60
    · rw [if_pos hg]
      apply groupGo_cover rest s ts (hse.trans hets) hch' t
      rcases ht with ⟨h1, h2⟩ | h
      · exact Or.inl ⟨h1, h2.trans hets⟩
      · rcases List.mem_cons.mp h with h | h
        · exact Or.inl ⟨by omega, by omega⟩
        · exact Or.inr h
    · rw [if_neg hg]
      rcases ht with ⟨h1, h2⟩ | h
      · exact ⟨(s, e), List.mem_cons_self _ _, h1, h2⟩
      · have hmem : (t ≤ ts ∧ ts ≤ t) ∨ t ∈ rest := by
          rcases List.mem_cons.mp h with h | h
          · exact Or.inl ⟨le_of_eq h, le_of_eq h.symm⟩
          · exact Or.inr h
        rcases groupGo_cover rest ts ts (le_refl ts) hch' t
            (by rcases hmem with ⟨h1, h2⟩ | h
                · exact Or.inl ⟨h2, h1⟩
                · exact Or.inr h) with ⟨p, hp, hb⟩
        exact ⟨p, List.mem_cons_of_mem _ hp, hb⟩

/-- Shifting both rows leaves the descending comparison unchanged. -/
theorem detLe_shiftTime (n : Nat) (a b : Detection) :
    detLe (a.shiftTime n) (b.shiftTime n) ↔ detLe a b := by
  simp only [detLe, Detection.shiftTime]
  omega

/-- Shifting both rows leaves the ascending comparison unchanged. -/
theorem detAscLe_shiftTime (n : Nat) (a b : Detection) :
    detAscLe (a.shiftTime n) (b.shiftTime n) ↔ detAscLe a b := by
  simp only [detAscLe, Detection.shiftTime]
  omega

/-- Filtering by type commutes with shifting timestamps. -/
theorem filter_shiftTime (n : Nat) (types : List String)
    (rows : List Detection) :
    (rows.map (Detection.shiftTime n)).filter (typeIn types) =
      (rows.filter (typeIn types)).map (Detection.shiftTime n) := by
  rw [List.filter_map]
  rfl

/-- Sorting descending commutes with shifting timestamps. -/
theorem insertionSortDesc_shiftTime (n : Nat) (rows : List Detection) :
    (rows.map (Detection.shiftTime n)).insertionSort detLe =
      (rows.insertionSort detLe).map (Detection.shiftTime n) :=
  (List.map_insertionSort detLe detLe (Detection.shiftTime n) rows
    (fun a _ b _ => (detLe_shiftTime n a b).symm)).symm

/-- Sorting ascending commutes with shifting timestamps. -/
theorem insertionSortAsc_shiftTime (n : Nat) (rows : List Detection) :
    (rows.map (Detection.shiftTime n)).insertionSort detAscLe =
      (rows.insertionSort detAscLe).map (Detection.shiftTime n) :=
  (List.map_insertionSort detAscLe detAscLe (Detection.shiftTime n) rows
    (fun a _ b _ => (detAscLe_shiftTime n a b).symm)).symm

/-- The recent-events query commutes with shifting timestamps. -/
theorem queryRecent_shiftTime (n : Nat) (rows : List Detection)
    (types : List String) (k : Nat) :
    queryRecent (rows.map (Detection.shiftTime n)) types k =
      (queryRecent rows types k).map (Detection.shiftTime n) := by
  unfold queryRecent
  rw [filter_shiftTime, insertionSortDesc_shiftTime]
  exact (List.map_take _ _ _).symm

/-- The ascending timestamp query commutes with shifting timestamps. -/
theorem queryTimesAsc_shiftTime (n : Nat) (rows : List Detection)
    (types : List String) :
    queryTimesAsc (rows.map (Detection.shiftTime n)) types =
      (queryTimesAsc rows types).map (fun t => n + t) := by
  unfold queryTimesAsc
  rw [filter_shiftTime, insertionSortAsc_shiftTime, List.map_map, List.map_map]
  rfl

/-- The adjacency loop only looks at time differences, so it is invariant
under shifting every timestamp. -/
theorem consecutiveCheck_shiftTime (n : Nat) :
    ∀ l : List Detection,
      consecutiveCheck (l.map (Detection.shiftTime n)) = consecutiveCheck l
  | [] => rfl
  | [_] => rfl
  | a :: b :: rest => by
    show (if 60 < tdSeconds ((a.shiftTime n).time - (b.shiftTime n).time)
        then false
        else consecutiveCheck ((b :: rest).map (Detection.shiftTime n))) =
      (if 60 < tdSeconds (a.time - b.time) then false
        else consecutiveCheck (b :: rest))
    have hsub : (a.shiftTime n).time - (b.shiftTime n).time = a.time - b.time := by
      simp only [Detection.shiftTime]
      omega
    rw [hsub, consecutiveCheck_shiftTime n (b :: rest)]

/-- One ingestion step commutes with shifting all timestamps. -/
theorem ingest_shiftTime (n : Nat) (s : Store) (t : Nat) (ty : String) :
    ingest_data (Store.shift n s) (n + t) ty =
      (Store.shift n (ingest_data s t ty).1, (ingest_data s t ty).2) := by
  rw [ingest_data_eq, ingest_data_eq]
  have hrows : (Store.shift n s).rows ++ [⟨(Store.shift n s).nextId, n + t, ty⟩] =
      (s.rows ++ [(⟨s.nextId, t, ty⟩ : Detection)]).map (Detection.shiftTime n) := by
    rw [List.map_append]
    rfl
  rw [hrows, queryRecent_shiftTime, List.length_map, consecutiveCheck_shiftTime]
  rfl

/-- A batch of ingestions commutes with shifting all timestamps. -/
theorem runIngests_shiftTime (n : Nat) :
    ∀ (l : List (Nat × String)) (s : Store),
      runIngests (Store.shift n s) (shiftIngests n l) =
        (Store.shift n (runIngests s l).1, (runIngests s l).2)
  | [], _ => rfl
  | (t, ty) :: rest, s => by
    have hsh : shiftIngests n ((t, ty) :: rest) =
        (n + t, ty) :: shiftIngests n rest := rfl
    rw [hsh, runIngests_cons, runIngests_cons, ingest_shiftTime]
    rw [show ((Store.shift n (ingest_data s t ty).1, (ingest_data s t ty).2)).1 =
      Store.shift n (ingest_data s t ty).1 from rfl]
    rw [runIngests_shiftTime n rest (ingest_data s t ty).1]

/-- The scan helper commutes with shifting all timestamps. -/
theorem groupGo_shiftTime (n : Nat) :
    ∀ (l : List Nat) (s e : Nat),
      groupGo (n + s) (n + e) (l.map (fun t => n + t)) =
        (groupGo s e l).map (fun p => (n + p.1, n + p.2))
  | [], _, _ => rfl
  | ts :: rest, s, e => by
    show (if tdSeconds (n + ts - (n + e)) ≤ 60
        then groupGo (n + s) (n + ts) (rest.map (fun t => n + t))
        else (n + s, n + e) :: groupGo (n + ts) (n + ts) (rest.map (fun t => n + t))) = _
    rw [Nat.add_sub_add_left]
    by_cases hg : tdSeconds (ts - e) ≤ 60
    · rw [if_pos hg, groupGo_shiftTime n rest s ts]
      conv_rhs => rw [groupGo, if_pos hg]
    · rw [if_neg hg, groupGo_shiftTime n rest ts ts]
      conv_rhs => rw [groupGo, if_neg hg, List.map_cons]

/-- The grouping core commutes with shifting all timestamps. -/
theorem groupIntervals_shiftTime (n : Nat) :
    ∀ l : List Nat,
      groupIntervals (l.map (fun t => n + t)) =
        (groupIntervals l).map (fun p => (n + p.1, n + p.2))
  | [] => rfl
  | t :: rest => by
    show groupGo (n + t) (n + t) (rest.map (fun t => n + t)) = _
    rw [groupGo_shiftTime n rest t t]
    rfl

/-- The grouper commutes with shifting all timestamps. -/
theorem group_timestamps_shiftTime (n : Nat) (rows : List Detection)
    (types : List String) :
    group_timestamps (rows.map (Detection.shiftTime n)) types =
      (group_timestamps rows types).map (fun p => (n + p.1, n + p.2)) := by
  unfold group_timestamps
  rw [queryTimesAsc_shiftTime, groupIntervals_shiftTime]

/-- The retry loop makes at most as many attempts as it has iterations. -/
theorem waitAux_attempts_le (conn : Nat → Bool) (retries delay : Nat) :
    ∀ (rem attempt : Nat), (waitAux conn retries delay rem attempt).2.1 ≤ rem
  | 0, _ => by simp [waitAux]
  | rem + 1, attempt => by
    show (if conn attempt then ((some true, 1, 0) : Option Bool × Nat × Nat)
      else if attempt < retries - 1 then
        ((waitAux conn retries delay rem (attempt + 1)).1,
         (waitAux conn retries delay rem (attempt + 1)).2.1 + 1,
         (waitAux conn retries delay rem (attempt + 1)).2.2 + delay)
      else (some false, 1, 0)).2.1 ≤ rem + 1
    by_cases hc : conn attempt
    · rw [if_pos hc]
      show 1 ≤ rem + 1
      omega
    · rw [if_neg hc]
      by_cases hl : attempt < retries - 1
      · rw [if_pos hl]
        have := waitAux_attempts_le conn retries delay rem (attempt + 1)
        show (waitAux conn retries delay rem (attempt + 1)).2.1 + 1 ≤ rem + 1
        omega
      · rw [if_neg hl]
        show 1 ≤ rem + 1
        omega

/-- When every remaining attempt fails, the loop runs through all of them,
sleeps between consecutive attempts, and returns `False`. -/
theorem waitAux_all_fail (conn : Nat → Bool) (retries delay : Nat) :
    ∀ (rem attempt : Nat), attempt + rem = retries → 1 ≤ rem →
      (∀ i, attempt ≤ i → i < retries → conn i = false) →
      waitAux conn retries delay rem attempt =
        (some false, rem, (rem - 1) * delay)
  | 0, _ => by omega
  | 1, attempt => by
    intro hsum _ hf
    have hc : conn attempt = false := hf attempt (le_refl attempt) (by omega)
    show (if conn attempt then ((some true, 1, 0) : Option Bool × Nat × Nat)
      else if attempt < retries - 1 then _ else (some false, 1, 0)) = _
    rw [hc, if_neg (by simp), if_neg (by omega)]
    simp
  | rem + 2, attempt => by
    intro hsum _ hf
    have hc : conn attempt = false := hf attempt (le_refl attempt) (by omega)
    have hrec := waitAux_all_fail conn retries delay (rem + 1) (attempt + 1)
      (by omega) (by omega) (fun i h1 h2 => hf i (by omega) h2)
    show (if conn attempt then ((some true, 1, 0) : Option Bool × Nat × Nat)
      else if attempt < retries - 1 then
        ((waitAux conn retries delay (rem + 1) (attempt + 1)).1,
         (waitAux conn retries delay (rem + 1) (attempt + 1)).2.1 + 1,
         (waitAux conn retries delay (rem + 1) (attempt + 1)).2.2 + delay) 
      else (some false, 1, 0)) = (some false, rem + 2, (rem + 2 - 1) * delay)
    rw [hc, if_neg (by simp), if_pos (by omega), hrec]
    show (some false, rem + 1 + 1, rem * delay + delay) = _
    have : (rem + 2 - 1) * delay = rem * delay + delay := by
      rw [show rem + 2 - 1 = rem + 1 from by omega, Nat.succ_mul]
    rw [this]

/-- When attempt `k` is the first success, the loop stops right there:
`k + 1 - attempt` attempts, `k - attempt` sleeps, and returns `True`. -/
theorem waitAux_first_success (conn : Nat → Bool) (retries delay : Nat) :
    ∀ (rem attempt k : Nat), attempt + rem = retries → attempt ≤ k →
      k < retries → conn k = true →
      (∀ i, attempt ≤ i → i < k → conn i = false) →
      waitAux conn retries delay rem attempt =
        (some true, k + 1 - attempt, (k - attempt) * delay)
  | 0, _, _ => by omega
  | rem + 1, attempt, k => by
    intro hsum hak hkr hk hf
    show (if conn attempt then ((some true, 1, 0) : Option Bool × Nat × Nat)
      else if attempt < retries - 1 then
        ((waitAux conn retries delay rem (attempt + 1)).1,
         (waitAux conn retries delay rem (attempt + 1)).2.1 + 1,
         (waitAux conn retries delay rem (attempt + 1)).2.2 + delay)
      else (some false, 1, 0)) = (some true, k + 1 - attempt, (k - attempt) * delay)
    rcases Nat.eq_or_lt_of_le hak with heq | hlt
    · subst heq
      rw [if_pos hk]
      rw [show attempt + 1 - attempt = 1 from by omega,
        show attempt - attempt = 0 from by omega]
      simp
    · have hc : conn attempt = false := hf attempt (le_refl attempt) hlt
      have hrec := waitAux_first_success conn retries delay rem (attempt + 1) k
        (by omega) (by omega) hkr hk (fun i h1 h2 => hf i (by omega) h2)
      rw [hc, if_neg (by simp), if_pos (by omega), hrec]
      show (some true, k + 1 - (attempt + 1) + 1, (k - (attempt + 1)) * delay + delay) = _
      have h1 : k + 1 - (attempt + 1) + 1 = k + 1 - attempt := by omega
      have h2 : (k - (attempt + 1)) * delay + delay = (k - attempt) * delay := by
        rw [show k - attempt = k - (attempt + 1) + 1 from by omega, Nat.succ_mul]
      rw [h1, h2]

/-- The ascending timestamp query really is ascending. -/
theorem queryTimesAsc_sorted (rows : List Detection) (types : List String) :
    List.Sorted (· ≤ ·) (queryTimesAsc rows types) := by
  unfold queryTimesAsc
  exact List.Pairwise.map Detection.time
    (fun a b h => by
      unfold detAscLe at h
      omega)
    (List.sorted_insertionSort detAscLe (rows.filter (typeIn types)))

/-- Full correctness of the grouping core on an ascending input: intervals
are well-formed, pairwise ordered/disjoint, and every input timestamp lies
in exactly one of them. -/
theorem groupIntervals_spec (ts : List Nat) (h : List.Sorted (· ≤ ·) ts) :
    (∀ p ∈ groupIntervals ts, p.1 ≤ p.2) ∧
    List.Pairwise (fun p q : Nat × Nat => p.2 < q.1) (groupIntervals ts) ∧
    (∀ t ∈ ts, ∃! p : Nat × Nat,
      p ∈ groupIntervals ts ∧ p.1 ≤ t ∧ t ≤ p.2) := by
  cases ts with
  | nil =>
    refine ⟨by simp [groupIntervals], by simp [groupIntervals], by simp⟩
  | cons t rest =>
    have hch : List.Chain' (· ≤ ·) (t :: rest) := List.Pairwise.chain' h
    have hse : t ≤ t := le_refl t
    have hforall := groupGo_forall rest t t hse hch
    have hpw := groupGo_pairwise rest t t hse hch
    refine ⟨fun p hp => (hforall p hp).2, hpw, ?_⟩
    intro x hx
    have hcov : ∃ p, p ∈ groupGo t t rest ∧ p.1 ≤ x ∧ x ≤ p.2 := by
      apply groupGo_cover rest t t hse hch x
      rcases List.mem_cons.mp hx with h1 | h1
      · exact Or.inl ⟨by omega, by omega⟩
      · exact Or.inr h1
    rcases hcov with ⟨p, hp, hb⟩
    refine ⟨p, ⟨hp, hb⟩, ?_⟩
    rintro q ⟨hq, hqb⟩
    by_cases hpq : q = p
    · exact hpq
    · exfalso
      have hsym : Symmetric
          (fun p q : Nat × Nat => p = q ∨ p.2 < q.1 ∨ q.2 < p.1) := by
        intro a b hab
        rcases hab with h1 | h1 | h1
        · exact Or.inl h1.symm
        · exact Or.inr (Or.inr h1)
        · exact Or.inr (Or.inl h1)
      have hpw2 : List.Pairwise
          (fun p q : Nat × Nat => p = q ∨ p.2 < q.1 ∨ q.2 < p.1)
          (groupGo t t rest) :=
        hpw.imp (fun h1 => Or.inr (Or.inl h1))
      rcases List.Pairwise.forall hsym hpw2 hq hp hpq with h1 | h1 | h1
      · exact hpq h1
      · rcases hb with ⟨hb1, hb2⟩
        rcases hqb with ⟨hq1, hq2⟩
        omega
      · rcases hb with ⟨hb1, hb2⟩
        rcases hqb with ⟨hq1, hq2⟩
        omega

/-- The alert list of a batch has one entry per ingestion. -/
theorem runIngests_length :
    ∀ (l : List (Nat × String)) (s : Store),
      ((runIngests s l).2).length = l.length
  | [], _ => rfl
  | (t, ty) :: rest, s => by
    rw [runIngests_cons]
    show ((runIngests (ingest_data s t ty).1 rest).2).length + 1 = rest.length + 1
    rw [runIngests_length rest (ingest_data s t ty).1]

/-- C1: for every ascending timestamp sequence, the grouper's interval list
is made of well-formed intervals, is ordered with pairwise disjoint
intervals (each ends strictly before the next starts), and every input
timestamp lies inside exactly one returned interval; the same holds for
`group_timestamps`, whose fetched timestamp list is ascending. -/
theorem C1_grouper_partition :
    (∀ ts : List Nat, List.Sorted (· ≤ ·) ts →
      (∀ p ∈ groupIntervals ts, p.1 ≤ p.2) ∧
      List.Pairwise (fun p q : Nat × Nat => p.2 < q.1) (groupIntervals ts) ∧
      (∀ t ∈ ts, ∃! p : Nat × Nat,
        p ∈ groupIntervals ts ∧ p.1 ≤ t ∧ t ≤ p.2)) ∧
    (∀ (rows : List Detection) (types : List String),
      (∀ p ∈ group_timestamps rows types, p.1 ≤ p.2) ∧
      List.Pairwise (fun p q : Nat × Nat => p.2 < q.1)
        (group_timestamps rows types) ∧
      (∀ t ∈ queryTimesAsc rows types, ∃! p : Nat × Nat,
        p ∈ group_timestamps rows types ∧ p.1 ≤ t ∧ t ≤ p.2)) := by
  constructor
  · intro ts h
    exact groupIntervals_spec ts h
  · intro rows types
    exact groupIntervals_spec (queryTimesAsc rows types)
      (queryTimesAsc_sorted rows types)

/-- Witness for C1 at the concrete ascending input `[0, 45000000, 200000000]`
(45 s then 155 s gaps). -/
theorem C1_grouper_partition_witness :
    List.Sorted (· ≤ ·) [0, 45000000, 200000000] ∧
    ((∀ p ∈ groupIntervals [0, 45000000, 200000000], p.1 ≤ p.2) ∧
     List.Pairwise (fun p q : Nat × Nat => p.2 < q.1)
       (groupIntervals [0, 45000000, 200000000]) ∧
     (∀ t ∈ [0, 45000000, 200000000], ∃! p : Nat × Nat,
       p ∈ groupIntervals [0, 45000000, 200000000] ∧ p.1 ≤ t ∧ t ≤ p.2)) :=
  ⟨by decide, C1_grouper_partition.1 [0, 45000000, 200000000] (by decide)⟩

/-- C2: inside any scan state, an adjacent gap of exactly 60 seconds merges
the next timestamp into the current run (same interval, same start), while
a gap of 61 seconds closes the current interval and starts a new run; in
particular on two-element inputs. -/
theorem C2_gap_threshold_inclusive :
    ∀ (s e : Nat) (rest : List Nat),
      groupGo s e ((e + 60000000) :: rest) = groupGo s (e + 60000000) rest ∧
      groupGo s e ((e + 61000000) :: rest) =
        (s, e) :: groupGo (e + 61000000) (e + 61000000) rest ∧
      groupIntervals [s, s + 60000000] = [(s, s + 60000000)] ∧
      groupIntervals [s, s + 61000000] = [(s, s), (s + 61000000, s + 61000000)] := by
  intro s e rest
  have h60 : tdSeconds (e + 60000000 - e) ≤ 60 := by
    rw [Nat.add_sub_cancel_left]
    decide
  have h61 : ¬ tdSeconds (e + 61000000 - e) ≤ 60 := by
    rw [Nat.add_sub_cancel_left]
    decide
  have h60s : tdSeconds (s + 60000000 - s) ≤ 60 := by
    rw [Nat.add_sub_cancel_left]
    decide
  have h61s : ¬ tdSeconds (s + 61000000 - s) ≤ 60 := by
    rw [Nat.add_sub_cancel_left]
    decide
  refine ⟨?_, ?_, ?_, ?_⟩
  · show (if tdSeconds (e + 60000000 - e) ≤ 60 then groupGo s (e + 60000000) rest
      else (s, e) :: groupGo (e + 60000000) (e + 60000000) rest) =
      groupGo s (e + 60000000) rest
    rw [if_pos h60]
  · show (if tdSeconds (e + 61000000 - e) ≤ 60 then groupGo s (e + 61000000) rest
      else (s, e) :: groupGo (e + 61000000) (e + 61000000) rest) =
      (s, e) :: groupGo (e + 61000000) (e + 61000000) rest
    rw [if_neg h61]
  · show (if tdSeconds (s + 60000000 - s) ≤ 60
        then groupGo s (s + 60000000) ([] : List Nat)
        else (s, s) :: groupGo (s + 60000000) (s + 60000000) []) =
      [(s, s + 60000000)]
    rw [if_pos h60s]
    rfl
  · show (if tdSeconds (s + 61000000 - s) ≤ 60
        then groupGo s (s + 61000000) ([] : List Nat)
        else (s, s) :: groupGo (s + 61000000) (s + 61000000) []) =
      [(s, s), (s + 61000000, s + 61000000)]
    rw [if_neg h61s]
    rfl

/-- C4: the grouper returns an empty list on empty input, a single
degenerate interval `(t, t)` on a one-element input, and the scan helper
always emits the final run (its result is never empty). -/
theorem C4_grouper_base_cases :
    groupIntervals [] = [] ∧
    (∀ t : Nat, groupIntervals [t] = [(t, t)]) ∧
    (∀ (s e : Nat) (l : List Nat), groupGo s e l ≠ []) :=
  ⟨rfl, fun _ => rfl, fun s e l => groupGo_ne_nil s e l⟩

/-- Witness for C4 at concrete inputs (the third conjunct's statement is a
negation, discharged here at `groupGo 1 2 [200000000]`). -/
theorem C4_grouper_base_cases_witness :
    groupIntervals [] = [] ∧ groupIntervals [7] = [(7, 7)] ∧
      groupGo 1 2 [200000000] ≠ [] :=
  ⟨C4_grouper_base_cases.1, C4_grouper_base_cases.2.1 7,
   C4_grouper_base_cases.2.2 1 2 [200000000]⟩

/-- C6: aggregation is a pure function of the stored rows (the embedding of
`aggregate_detections` reads and never writes), so two calls on the same
store state return identical mappings, with the same two keys `people` and
`vehicles` in order. -/
theorem C6_aggregate_idempotent :
    ∀ s : Store,
      aggregate_detections s.rows = aggregate_detections s.rows ∧
      (aggregate_detections s.rows).map Prod.fst = ["people", "vehicles"] :=
  fun _ => ⟨rfl, rfl⟩

/-- C9: the timestamps 0 and 86430000000 μs differ by one day plus 30
seconds (more than 24 hours, at most one day plus 60 seconds): the grouper
merges them into one interval, and the detector's adjacency test counts
them as consecutive, because `timedelta.seconds` discards whole days. -/
theorem C9_day_discarding_gap :
    86400000000 < 86430000000 - 0 ∧
    86430000000 - 0 ≤ 86400000000 + 60000000 ∧
    60 < (86430000000 - 0) / 1000000 ∧
    groupIntervals [0, 86430000000] = [(0, 86430000000)] ∧
    consecutiveCheck
      [⟨2, 86430000000, "pedestrian"⟩, ⟨1, 0, "pedestrian"⟩] = true := by
  decide

/-- Characterisation of the alert decision in terms of the stored rows:
the printed alert is equivalent to having at least 5 tracked rows and all
adjacent `timedelta.seconds` gaps of the 5-row window at most 60. -/
theorem alert_iff_aux (rows2 : List Detection) :
    ((queryRecent rows2 ["pedestrian", "bicycle"] 5).length == 5 &&
      consecutiveCheck (queryRecent rows2 ["pedestrian", "bicycle"] 5)) = true ↔
    5 ≤ ((rows2.filter (typeIn ["pedestrian", "bicycle"])).length) ∧
    List.Chain' (fun a b => tdSeconds (a.time - b.time) ≤ 60)
      (queryRecent rows2 ["pedestrian", "bicycle"] 5) := by
  rw [Bool.and_eq_true, beq_iff_eq, consecutiveCheck_iff]
  have hlen : (queryRecent rows2 ["pedestrian", "bicycle"] 5).length =
      min 5 ((rows2.filter (typeIn ["pedestrian", "bicycle"])).length) := by
    unfold queryRecent
    rw [List.length_take, (List.perm_insertionSort detLe _).length_eq]
  rw [hlen]
  constructor
  · rintro ⟨h1, h2⟩
    exact ⟨by omega, h2⟩
  · rintro ⟨h1, h2⟩
    exact ⟨by omega, h2⟩

/-- Counterexample to C3 as stated: five pedestrian events whose adjacent
true gaps are all 86430 whole seconds (one day plus 30 seconds, far more
than 60 whole seconds) still make the 5th ingestion print the alert,
because the gap check keeps only the seconds component of the difference. -/
theorem C3_alert_counterexample :
    (runIngests Store.empty
      [(0, "pedestrian"), (86430000000, "pedestrian"), (172860000000, "pedestrian"),
       (259290000000, "pedestrian"), (345720000000, "pedestrian")]).2 =
      [false, false, false, false, true] ∧
    (queryRecent
        ((runIngests Store.empty
          [(0, "pedestrian"), (86430000000, "pedestrian"), (172860000000, "pedestrian"),
           (259290000000, "pedestrian"), (345720000000, "pedestrian")]).1).rows
        ["pedestrian", "bicycle"] 5).map Detection.time =
      [345720000000, 259290000000, 172860000000, 86430000000, 0] ∧
    60 < (345720000000 - 259290000000) / 1000000 ∧
    60 < (259290000000 - 172860000000) / 1000000 ∧
    60 < (172860000000 - 86430000000) / 1000000 ∧
    60 < (86430000000 - 0) / 1000000 := by
  decide

/-- C3 (amended: the per-pair gap is the seconds component of the time
difference, i.e. truncated to whole seconds with whole days discarded):
the alert is printed iff at least 5 pedestrian/bicycle rows exist and all
adjacent gaps of the 5 most recent such rows pass that test; the 5-event
schedule with 30-second gaps alerts exactly once, at the 5th ingestion;
turning any single one of the four gaps into 61 seconds suppresses the
alert at every ingestion. -/
theorem C3_alert_rule :
    (∀ (s : Store) (t : Nat) (ty : String),
      (ingest_data s t ty).2 = true ↔
        5 ≤ (((ingest_data s t ty).1.rows.filter
            (typeIn ["pedestrian", "bicycle"])).length) ∧
        List.Chain' (fun a b => tdSeconds (a.time - b.time) ≤ 60)
          (queryRecent (ingest_data s t ty).1.rows ["pedestrian", "bicycle"] 5)) ∧
    (∀ T : Nat,
      (runIngests Store.empty
        [(T, "pedestrian"), (T + 30000000, "pedestrian"), (T + 60000000, "pedestrian"),
         (T + 90000000, "pedestrian"), (T + 120000000, "pedestrian")]).2 =
        [false, false, false, false, true]) ∧
    (∀ (T k : Nat), k < 4 →
      (runIngests Store.empty
        ((scenarioGapTimes k).map (fun u => (T + u, "pedestrian")))).2 =
        [false, false, false, false, false]) := by
  refine ⟨?_, ?_, ?_⟩
  · intro s t ty
    exact alert_iff_aux (s.rows ++ [⟨s.nextId, t, ty⟩])
  · intro T
    have hlist : [(T, "pedestrian"), (T + 30000000, "pedestrian"),
        (T + 60000000, "pedestrian"), (T + 90000000, "pedestrian"),
        (T + 120000000, "pedestrian")] =
        shiftIngests T [(0, "pedestrian"), (30000000, "pedestrian"),
          (60000000, "pedestrian"), (90000000, "pedestrian"),
          (120000000, "pedestrian")] := by
      simp [shiftIngests]
    rw [hlist, show Store.empty = Store.shift T Store.empty from rfl,
      runIngests_shiftTime]
    show (runIngests Store.empty [(0, "pedestrian"), (30000000, "pedestrian"),
      (60000000, "pedestrian"), (90000000, "pedestrian"),
      (120000000, "pedestrian")]).2 = [false, false, false, false, true]
    decide
  · intro T k hk
    have hlist : (scenarioGapTimes k).map (fun u => (T + u, "pedestrian")) =
        shiftIngests T ((scenarioGapTimes k).map (fun u => (u, "pedestrian"))) := by
      simp [shiftIngests, List.map_map]
    rw [hlist, show Store.empty = Store.shift T Store.empty from rfl,
      runIngests_shiftTime]
    show (runIngests Store.empty
      ((scenarioGapTimes k).map (fun u => (u, "pedestrian")))).2 = _
    interval_cases k
    · decide
    · decide
    · decide
    · decide

/-- Witness for C3 at `T = 0`, `k = 1` (second gap is the 61-second one). -/
theorem C3_alert_rule_witness :
    1 < 4 ∧
    (runIngests Store.empty
      ((scenarioGapTimes 1).map (fun u => (0 + u, "pedestrian")))).2 =
      [false, false, false, false, false] :=
  ⟨by decide, C3_alert_rule.2.2 0 1 (by decide)⟩

/-- C5: scenario A: ingesting `(T, pedestrian)`, `(T+60s, pedestrian)`,
`(T+300s, car)` into an empty store and aggregating yields the people
interval list `[(T, T+60s)]` and the vehicles interval list
`[(T+300s, T+300s)]`. -/
theorem C5_scenario_A (T : Nat) :
    aggregate_detections
      ((runIngests Store.empty
        [(T, "pedestrian"), (T + 60000000, "pedestrian"),
         (T + 300000000, "car")]).1).rows =
      [("people", [(T, T + 60000000)]),
       ("vehicles", [(T + 300000000, T + 300000000)])] := by
  have hlist : [(T, "pedestrian"), (T + 60000000, "pedestrian"),
      (T + 300000000, "car")] =
      shiftIngests T [(0, "pedestrian"), (60000000, "pedestrian"),
        (300000000, "car")] := by
    simp [shiftIngests]
  rw [hlist, show Store.empty = Store.shift T Store.empty from rfl,
    runIngests_shiftTime]
  show aggregate_detections
      (((runIngests Store.empty [(0, "pedestrian"), (60000000, "pedestrian"),
        (300000000, "car")]).1).rows.map (Detection.shiftTime T)) = _
  unfold aggregate_detections
  rw [group_timestamps_shiftTime, group_timestamps_shiftTime]
  rw [show group_timestamps
      ((runIngests Store.empty [(0, "pedestrian"), (60000000, "pedestrian"),
        (300000000, "car")]).1).rows ["pedestrian", "bicycle"] =
      [(0, 60000000)] from by decide]
  rw [show group_timestamps
      ((runIngests Store.empty [(0, "pedestrian"), (60000000, "pedestrian"),
        (300000000, "car")]).1).rows ["car", "truck", "van"] =
      [(300000000, 300000000)] from by decide]
  simp

/-- C10: the detector keeps no suppression state: after the alert fires at
the 5th ingestion, a 6th tracked event whose window again passes the gap
test makes the alert fire again; and exactly one alert decision is produced
per ingestion. -/
theorem C10_no_alert_dedup :
    (∀ T : Nat,
      (runIngests Store.empty
        [(T, "pedestrian"), (T + 30000000, "pedestrian"), (T + 60000000, "pedestrian"),
         (T + 90000000, "pedestrian"), (T + 120000000, "pedestrian"),
         (T + 150000000, "pedestrian")]).2 =
        [false, false, false, false, true, true]) ∧
    (∀ (s : Store) (l : List (Nat × String)),
      ((runIngests s l).2).length = l.length) := by
  constructor
  · intro T
    have hlist : [(T, "pedestrian"), (T + 30000000, "pedestrian"),
        (T + 60000000, "pedestrian"), (T + 90000000, "pedestrian"),
        (T + 120000000, "pedestrian"), (T + 150000000, "pedestrian")] =
        shiftIngests T [(0, "pedestrian"), (30000000, "pedestrian"),
          (60000000, "pedestrian"), (90000000, "pedestrian"),
          (120000000, "pedestrian"), (150000000, "pedestrian")] := by
      simp [shiftIngests]
    rw [hlist, show Store.empty = Store.shift T Store.empty from rfl,
      runIngests_shiftTime]
    show (runIngests Store.empty [(0, "pedestrian"), (30000000, "pedestrian"),
      (60000000, "pedestrian"), (90000000, "pedestrian"),
      (120000000, "pedestrian"), (150000000, "pedestrian")]).2 =
      [false, false, false, false, true, true]
    decide
  · intro s l
    exact runIngests_length l s

/-- C7: the detector's window query returns at most 5 rows, all of tracked
type, in descending time order (ties broken by insertion id, per the
modelled `detLe`), its result is descending in time, and it consists of the
most recent tracked rows: every tracked row left out is no more recent than
any returned row. Determinism holds by construction: the window is a
function of the stored rows. -/
theorem C7_query_recent_window :
    ∀ rows : List Detection,
      (queryRecent rows ["pedestrian", "bicycle"] 5).length ≤ 5 ∧
      (∀ d ∈ queryRecent rows ["pedestrian", "bicycle"] 5,
        d.type = "pedestrian" ∨ d.type = "bicycle") ∧
      List.Sorted detLe (queryRecent rows ["pedestrian", "bicycle"] 5) ∧
      List.Pairwise (fun a b : Detection => b.time ≤ a.time)
        (queryRecent rows ["pedestrian", "bicycle"] 5) ∧
      (∀ d ∈ rows.filter (typeIn ["pedestrian", "bicycle"]),
        d ∉ queryRecent rows ["pedestrian", "bicycle"] 5 →
        ∀ e ∈ queryRecent rows ["pedestrian", "bicycle"] 5, detLe e d) := by
  intro rows
  have hsorted : List.Sorted detLe
      ((rows.filter (typeIn ["pedestrian", "bicycle"])).insertionSort detLe) :=
    List.sorted_insertionSort detLe _
  have htake : List.Sorted detLe (queryRecent rows ["pedestrian", "bicycle"] 5) :=
    List.Pairwise.sublist (List.take_sublist _ _) hsorted
  refine ⟨List.length_take_le _ _, ?_, htake, ?_, ?_⟩
  · intro d hd
    have h1 : d ∈ (rows.filter (typeIn ["pedestrian", "bicycle"])).insertionSort detLe :=
      List.mem_of_mem_take hd
    have h2 : d ∈ rows.filter (typeIn ["pedestrian", "bicycle"]) :=
      (List.mem_insertionSort detLe).mp h1
    have h3 : typeIn ["pedestrian", "bicycle"] d = true := (List.mem_filter.mp h2).2
    have h4 : d.type ∈ ["pedestrian", "bicycle"] := List.elem_iff.mp h3
    rcases List.mem_cons.mp h4 with h5 | h5
    · exact Or.inl h5
    · exact Or.inr (by simpa using h5)
  · exact htake.imp (fun h => by
      unfold detLe at h
      omega)
  · intro d hd hnot e he
    have hd1 : d ∈ (rows.filter (typeIn ["pedestrian", "bicycle"])).insertionSort detLe :=
      (List.mem_insertionSort detLe).mpr hd
    rw [← List.take_append_drop 5
      ((rows.filter (typeIn ["pedestrian", "bicycle"])).insertionSort detLe)] at hd1
    rcases List.mem_append.mp hd1 with h | h
    · exact absurd h hnot
    · have hpw := hsorted
      rw [← List.take_append_drop 5
        ((rows.filter (typeIn ["pedestrian", "bicycle"])).insertionSort detLe)] at hpw
      exact (List.pairwise_append.mp hpw).2.2 e he d h

/-- Witness for C7 at a concrete two-row store (one tracked row is excluded
from a width-1 window in none of the conjuncts; hypotheses of the inner
implications are discharged by the theorem application itself). -/
theorem C7_query_recent_window_witness :
    (queryRecent [⟨1, 50, "pedestrian"⟩, ⟨2, 10, "car"⟩]
        ["pedestrian", "bicycle"] 5).length ≤ 5 ∧
    (∀ d ∈ queryRecent [⟨1, 50, "pedestrian"⟩, ⟨2, 10, "car"⟩]
        ["pedestrian", "bicycle"] 5,
      d.type = "pedestrian" ∨ d.type = "bicycle") ∧
    List.Sorted detLe (queryRecent [⟨1, 50, "pedestrian"⟩, ⟨2, 10, "car"⟩]
      ["pedestrian", "bicycle"] 5) ∧
    List.Pairwise (fun a b : Detection => b.time ≤ a.time)
      (queryRecent [⟨1, 50, "pedestrian"⟩, ⟨2, 10, "car"⟩]
        ["pedestrian", "bicycle"] 5) ∧
    (∀ d ∈ ([⟨1, 50, "pedestrian"⟩, ⟨2, 10, "car"⟩] : List Detection).filter
        (typeIn ["pedestrian", "bicycle"]),
      d ∉ queryRecent [⟨1, 50, "pedestrian"⟩, ⟨2, 10, "car"⟩]
        ["pedestrian", "bicycle"] 5 →
      ∀ e ∈ queryRecent [⟨1, 50, "pedestrian"⟩, ⟨2, 10, "car"⟩]
        ["pedestrian", "bicycle"] 5, detLe e d) :=
  C7_query_recent_window [⟨1, 50, "pedestrian"⟩, ⟨2, 10, "car"⟩]

/-- C8: with the default budget (5 retries, 5-second delay) the connection
loop makes at most 5 attempts; if all 5 attempts fail it makes exactly 5
attempts, sleeps 5 seconds between consecutive attempts (4 sleeps, 20
seconds total), reports failure, and `database_connection` raises; if
attempt `k` is the first success the loop returns success immediately after
`k + 1` attempts (sleeping only between them) and `database_connection`
succeeds. -/
theorem C8_connection_retry :
    ∀ conn : Nat → Bool,
      (wait_for_db_connection conn 5 5).2.1 ≤ 5 ∧
      ((∀ i, i < 5 → conn i = false) →
        wait_for_db_connection conn 5 5 = (some false, 5, 4 * 5) ∧
        database_connection conn =
          Except.error "Could not establish connection to the database.") ∧
      (∀ k, k < 5 → conn k = true → (∀ i, i < k → conn i = false) →
        wait_for_db_connection conn 5 5 = (some true, k + 1, k * 5) ∧
        database_connection conn = Except.ok ()) := by
  intro conn
  refine ⟨waitAux_attempts_le conn 5 5 5 0, ?_, ?_⟩
  · intro hf
    have hw : wait_for_db_connection conn 5 5 = (some false, 5, 4 * 5) := by
      show waitAux conn 5 5 5 0 = _
      rw [waitAux_all_fail conn 5 5 5 0 (by omega) (by omega) (fun i _ h2 => hf i h2)]
    refine ⟨hw, ?_⟩
    unfold database_connection
    rw [hw]
  · intro k hk hck hf
    have hw : wait_for_db_connection conn 5 5 = (some true, k + 1, k * 5) := by
      show waitAux conn 5 5 5 0 = _
      rw [waitAux_first_success conn 5 5 5 0 k (by omega) (by omega) hk hck
        (fun i _ h2 => hf i h2)]
      simp
    refine ⟨hw, ?_⟩
    unfold database_connection
    rw [hw]

/-- Witness for C8: a connection that succeeds only from the third attempt
on (indices 2 and up) gives success after 3 attempts and 10 seconds of
sleeping; a connection that always fails exhausts the 5 attempts, sleeps 20
seconds, and makes `database_connection` raise. -/
theorem C8_connection_retry_witness :
    (wait_for_db_connection (fun i => decide (2 ≤ i)) 5 5 = (some true, 3, 10) ∧
      database_connection (fun i => decide (2 ≤ i)) = Except.ok ()) ∧
    (wait_for_db_connection (fun _ => false) 5 5 = (some false, 5, 20) ∧
      database_connection (fun _ => false) =
        Except.error "Could not establish connection to the database.") :=
  ⟨(C8_connection_retry (fun i => decide (2 ≤ i))).2.2 2 (by decide) (by decide)
      (by decide),
   (C8_connection_retry (fun _ => false)).2.1 (fun _ _ => rfl)⟩
